import Mathlib

/-!
Verification of the content-analyzer backend (sfumato00/content-analyzer)
against its natural-language specification.

The repository implements the web-service plumbing: the Redis cache wrapper
(backend/internal/cache/redis.go), JWT issuance and validation
(backend/internal/auth/jwt.go), the user store with validation
(internal/models/user.go), HTTP handlers (backend/internal/handlers) and the
SQL schema (backend/migrations). The pipeline core of the specification
(Content Fingerprinter, Rate-Limited Dispatcher, Analysis Worker Pool,
Submission Orchestrator) is described by the spec and PRODUCT_PLAN.md but not
present in the source tree; those components are modelled from the spec and
marked as such in their doc comments.

Go conventions used throughout the embedding: a Go pair (value, error) with a
nil-able error becomes a Lean pair with an Option for the error, or an Except;
machine integers that cannot overflow in the modelled ranges become Nat.
-/

/-! ## Redis cache wrapper (backend/internal/cache/redis.go) -/

/-- A snapshot of the Redis key-value store: each key maps to an optional
entry holding the stored value and its remaining TTL. An absent key is what
the go-redis client reports as redis.Nil. -/
def RedisStore : Type := String → Option (String × Nat)

/-- The empty Redis store: every key is absent. -/
def RedisStore.empty : RedisStore := fun _ => none

/-- Embeds Cache.Get from redis.go: on redis.Nil (absent key) it returns the
empty string together with the non-nil error built by fmt.Errorf, namely
"key not found: " followed by the key; on a present key it returns the stored
value and a nil error. The Go return pair (string, error) is modelled as
String paired with Option String, where none is the nil error. -/
def Cache.Get (store : RedisStore) (key : String) : String × Option String :=
  match store key with
  | none => ("", some ("key not found: " ++ key))
  | some entry => (entry.fst, none)

/-- Embeds Cache.Set from redis.go: it delegates to the Redis SET command
with an expiration, which stores the value under the key and overwrites any
previous value and TTL for that key (last-write-wins). -/
def Cache.Set (store : RedisStore) (key value : String) (ttl : Nat) : RedisStore :=
  fun k => if k = key then some (value, ttl) else store k

/-- The environment the Redis client constructor New sees at startup:
the URL may fail to parse, the server may be unreachable, or reachable. -/
inductive RedisEnv where
  | urlInvalid
  | unreachable
  | reachable
deriving DecidableEq, Repr

/-- Embeds New from redis.go: an unparsable URL or a failed startup Ping make
New return an error, so no cache handle is produced; only a reachable Redis
yields one. -/
def Cache.New : RedisEnv → Except String Unit
  | .urlInvalid => .error "unable to parse Redis URL"
  | .unreachable => .error "unable to connect to Redis"
  | .reachable => .ok ()

/-! ## Health endpoints (backend/internal/handlers/health.go) -/

/-- Reachability of the two backing services as seen by the health handler. -/
structure HealthDeps where
  dbUp : Bool
  cacheUp : Bool
deriving DecidableEq, Repr

/-- Outcome of the readiness endpoint: a 503 with a message, or 200 ready. -/
inductive ReadyResp where
  | serviceUnavailable (msg : String)
  | ready
deriving DecidableEq, Repr

/-- Embeds HealthHandler.Ready from health.go: a failed database ping answers
503 "database not ready"; a failed Redis ping answers 503 "redis not ready";
otherwise the endpoint reports ready. -/
def HealthHandler.Ready (d : HealthDeps) : ReadyResp :=
  if !d.dbUp then .serviceUnavailable "database not ready"
  else if !d.cacheUp then .serviceUnavailable "redis not ready"
  else .ready

/-! ## Submission state machine (migrations/000001_init_schema.up.sql, spec §4.5) -/

/-- Submission status values, from the submissions schema comment in
migrations/000001_init_schema.up.sql: pending, processing, completed, failed. -/
inductive Status where
  | pending
  | processing
  | completed
  | failed
deriving DecidableEq, Repr

/-- The status a submission row is created with: the schema declares the
status column with DEFAULT pending. -/
def initialStatus : Status := Status.pending

/-- Modelled from the spec: the Submission state-machine transitions of
spec section 4.5 — the worker pipeline that performs the transitions is
absent from the source tree, only the schema declares the status column.
pending goes to processing, processing to completed or failed, and no other
transition is allowed; completed and failed are terminal. -/
def canTransition : Status → Status → Bool
  | .pending, .processing => true
  | .processing, .completed => true
  | .processing, .failed => true
  | _, _ => false

/-! ## Rate-limited dispatcher (spec §4.3; not present in the source tree) -/

/-- Modelled from the spec: the state of the Rate-Limited Dispatcher of spec
section 4.3, absent from the source tree. The single serialization point is
the log of timestamps at which external calls were admitted. -/
def DispatcherLog : Type := List Nat

/-- Modelled from the spec: an already-admitted call at time s still counts
against the window of size w ending at the current time t when the window has
not slid past it, that is when t < s + w. -/
def inRecentWindow (w t s : Nat) : Bool := t < s + w

/-- Modelled from the spec: admit one request at time t under quota n per
window of size w — the request is admitted exactly when fewer than n
already-admitted calls still fall inside the window ending at t, and an
admitted call is recorded in the log. -/
def Dispatcher.admitCall (w n : Nat) (log : DispatcherLog) (t : Nat) :
    Bool × DispatcherLog :=
  if log.countP (fun s => inRecentWindow w t s) < n then (true, t :: log)
  else (false, log)

/-- Modelled from the spec: run the dispatcher over a sequence of request
times, starting from a given log; returns the final log of admitted call
times. -/
def Dispatcher.run (w n : Nat) (reqs : List Nat) (log : DispatcherLog) :
    DispatcherLog :=
  match reqs with
  | [] => log
  | t :: rest => Dispatcher.run w n rest (Dispatcher.admitCall w n log t).snd

/-- A timestamp s lies in the half-open window of size w starting at a. -/
def inWindow (w a s : Nat) : Bool := a ≤ s && s < a + w

/-! ## Worker retry protocol (spec §4.4; not present in the source tree) -/

/-- Modelled from the spec: the Worker retry protocol of spec section 4.4 for
a submission whose external calls always fail transiently — the worker pool
is absent from the source tree. The argument r is the retry count accumulated
so far. Each round makes one external attempt, which fails transiently, and
increments the retry count; while the new count is below the configured
maximum the item is re-enqueued (with backoff) and processed again, and once
retries are exhausted the submission is marked failed. Returns the final
status together with the number of external attempts made. -/
def Worker.processTransient (maxRetries r : Nat) : Status × Nat :=
  if h : r + 1 < maxRetries then
    ((Worker.processTransient maxRetries (r + 1)).fst,
      1 + (Worker.processTransient maxRetries (r + 1)).snd)
  else
    (Status.failed, 1)
termination_by maxRetries - r

/-! ## Content fingerprinter and dedup pipeline (spec §4.1, §4.5; not in src) -/

/-- Modelled from the spec: the Content Fingerprinter of spec section 4.1 is
absent from the source tree. A deterministic fixed-width digest computed from
the text content only — a stand-in for a cryptographic hash, folding the code
points of the text into a 256-bit accumulator. It takes no submission
metadata at all. -/
def fingerprint (content : String) : Nat :=
  content.data.foldl (fun h c => (h * 1099511628211 + c.toNat) % (2 ^ 256))
    14695981039346656037

/-- Submission record, from spec section 3 and the submissions schema:
id, owner, immutable content, status, creation time. -/
structure Submission where
  id : Nat
  ownerId : String
  content : String
  status : Status
  createdAt : Nat

/-- The cache key of a submission is the fingerprint of its content alone. -/
def Submission.fingerprintOf (s : Submission) : Nat := fingerprint s.content

/-- Modelled from the spec: pipeline state shared by submissions — the result
cache keyed by fingerprint, each entry holding the result and its absolute
expiry time, plus a count of external analysis API calls issued so far. -/
structure PipeState where
  cache : Nat → Option (String × Nat)
  externalCalls : Nat

/-- The initial pipeline state: empty cache, no external calls issued. -/
def PipeState.empty : PipeState := ⟨fun _ => none, 0⟩

/-- Modelled from the spec: the cache-miss path — call the external analysis
API once and store the result in the cache under the fingerprint with expiry
now + ttl. -/
def cacheFill (analyze : String → String) (ttl : Nat) (st : PipeState)
    (content : String) (now : Nat) : PipeState × String :=
  let fp := fingerprint content
  let res := analyze content
  (⟨fun k => if k = fp then some (res, now + ttl) else st.cache k,
    st.externalCalls + 1⟩, res)

/-- Modelled from the spec: processing one submission end to end (Submit of
spec section 4.5 collapsed with the Worker step, the shape of the
analyzeContent sketch in PRODUCT_PLAN.md): compute the fingerprint of the
content; on a live cache hit return the cached result without any external
call; otherwise call the external API once and cache the result with the
configured TTL. -/
def analyzeContent (analyze : String → String) (ttl : Nat) (st : PipeState)
    (content : String) (now : Nat) : PipeState × String :=
  let fp := fingerprint content
  match st.cache fp with
  | some entry =>
    if now < entry.snd then (st, entry.fst)
    else cacheFill analyze ttl st content now
  | none => cacheFill analyze ttl st content now

/-! ## JWT issuance and validation (backend/internal/auth/jwt.go) -/

/-- A generic keyed digest used to model the opaque cryptographic primitives
of the external libraries: a fold of the payload into a 256-bit accumulator
from a seed. -/
def foldDigest (seed : Nat) (payload : List Nat) : Nat :=
  payload.foldl (fun h b => (h * 131 + b) % (2 ^ 256)) seed

/-- JWT claims carried in tokens (Claims in jwt.go, embedding the registered
claims): user id, email, expiry, issued-at, not-before, and issuer. Times are
Unix seconds; the uuid user id is modelled as a Nat. -/
structure JwtClaims where
  userID : Nat
  email : String
  expiresAt : Nat
  issuedAt : Nat
  notBefore : Nat
  issuer : String
deriving DecidableEq, Repr

/-- Canonical encoding of the claims, the input of the signature. -/
def JwtClaims.encode (c : JwtClaims) : List Nat :=
  c.userID :: c.expiresAt :: c.issuedAt :: c.notBefore ::
    (c.email.data.map Char.toNat ++ 0 :: c.issuer.data.map Char.toNat)

/-- Models HMAC-SHA256 (jwt.SigningMethodHS256 of the golang-jwt library):
a digest keyed by the secret, deterministic in secret and payload. -/
def hmacSign (secret : String) (payload : List Nat) : Nat :=
  foldDigest 7 (secret.data.map Char.toNat ++ 27 :: payload)

/-- A signed token: the claims together with their signature. The Go code
serializes this to a string; the embedding keeps it structured. -/
structure JwtToken where
  claims : JwtClaims
  signature : Nat
deriving DecidableEq, Repr

/-- JWTManager from jwt.go: the signing secret and the two expiries. -/
structure JWTManager where
  secretKey : String
  accessTokenExpiry : Nat
  refreshTokenExpiry : Nat
deriving DecidableEq, Repr

/-- Embeds NewJWTManager from jwt.go: 24 hours for the access token and
7 days for the refresh token, in seconds. -/
def NewJWTManager (secretKey : String) : JWTManager :=
  ⟨secretKey, 24 * 3600, 7 * 24 * 3600⟩

/-- Embeds generateToken from jwt.go: issue claims with expiry now + expiry,
issued-at and not-before now, issuer content-analyzer, signed with the
manager secret; returns the token and its expiry time. -/
def JWTManager.generateToken (m : JWTManager) (userID : Nat) (email : String)
    (expiry now : Nat) : JwtToken × Nat :=
  let claims : JwtClaims :=
    ⟨userID, email, now + expiry, now, now, "content-analyzer"⟩
  (⟨claims, hmacSign m.secretKey claims.encode⟩, now + expiry)

/-- Embeds GenerateTokenPair from jwt.go: the access token is generated with
the access-token expiry of the manager. -/
def JWTManager.GenerateTokenPair (m : JWTManager) (userID : Nat)
    (email : String) (now : Nat) : JwtToken × Nat :=
  m.generateToken userID email m.accessTokenExpiry now

/-- Embeds ValidateToken from jwt.go: re-derive the signature from the
manager secret and compare (a signature made with a different secret fails),
and reject tokens that are expired or not yet valid, as the golang-jwt parser
does; on success return the claims. -/
def JWTManager.ValidateToken (m : JWTManager) (tok : JwtToken) (now : Nat) :
    Except String JwtClaims :=
  if tok.signature ≠ hmacSign m.secretKey tok.claims.encode then
    .error "failed to parse token"
  else if tok.claims.expiresAt ≤ now then
    .error "failed to parse token"
  else if now < tok.claims.notBefore then
    .error "failed to parse token"
  else
    .ok tok.claims

/-! ## User store and validation (internal/models/user.go) -/

/-- User from user.go: id, email, bcrypt password hash, and timestamps.
Field names follow the Go struct. -/
structure User where
  ID : Nat
  Email : String
  PasswordHash : String
  CreatedAt : Nat
  UpdatedAt : Nat
deriving DecidableEq, Repr

/-- Characters the local part of the ValidateEmail regex accepts:
letters, digits, dot, underscore, percent, plus, hyphen. -/
def isLocalChar (c : Char) : Bool :=
  c.isAlpha || c.isDigit || c == '.' || c == '_' || c == '%' || c == '+' || c == '-'

/-- Characters the domain part of the ValidateEmail regex accepts:
letters, digits, dot, hyphen. -/
def isDomainChar (c : Char) : Bool :=
  c.isAlpha || c.isDigit || c == '.' || c == '-'

/-- Splits a list of characters at every occurrence of the separator; used to
express the regex of ValidateEmail as a computable matcher. -/
def splitOnChar (sep : Char) : List Char → List (List Char)
  | [] => [[]]
  | c :: rest =>
    match splitOnChar sep rest with
    | [] => [[]]
    | seg :: segs => if c = sep then [] :: seg :: segs else (c :: seg) :: segs

/-- Decides whether the anchored regex of ValidateEmail matches the whole
email: one or more local characters, the at-sign, one or more domain
characters, a dot, and at least two letters. The at-sign occurs in no
character class, so a match has exactly one at-sign; the top-level-domain
class is alphabetic only, so solely the last dot of the domain part can start
it; the dots inside the one-or-more domain segment are domain characters, so
that segment is nonempty exactly when the components before the last dot do
not form the single empty component. -/
def matchesEmailRegex (email : String) : Bool :=
  match splitOnChar '@' email.data with
  | [localPart, domainPart] =>
    !localPart.isEmpty && localPart.all isLocalChar &&
      (match splitOnChar '.' domainPart with
       | [] => false
       | [_] => false
       | comps =>
         let tld := comps.getLastD []
         let front := comps.dropLast
         decide (front ≠ [[]]) && (front.all fun seg => seg.all isDomainChar) &&
           decide (tld.length ≥ 2) && tld.all Char.isAlpha)
  | _ => false

/-- Embeds ValidateEmail from user.go: an empty email is rejected as
required; an email the regex does not match is rejected as invalid format. -/
def ValidateEmail (email : String) : Except String Unit :=
  if email = "" then .error "email is required"
  else if matchesEmailRegex email then .ok ()
  else .error "invalid email format"

/-- Embeds ValidatePassword from user.go: an empty password is rejected as
required, and a password of fewer than 8 bytes (Go len counts UTF-8 bytes)
is rejected as too short. -/
def ValidatePassword (password : String) : Except String Unit :=
  if password = "" then .error "password is required"
  else if password.utf8ByteSize < 8 then
    .error "password must be at least 8 characters long"
  else .ok ()

/-- Models bcrypt.GenerateFromPassword with cost 12 (an external library):
an opaque deterministic digest of the password. -/
def HashPassword (password : String) : String :=
  "bcrypt12-" ++ toString (foldDigest 12 (password.data.map Char.toNat))

/-- Outcome of UserStore.Create: the returned value or error, the resulting
users table, and how many times the bcrypt hasher ran. -/
structure CreateOutcome where
  result : Except String User
  store : List User
  hashCalls : Nat

/-- Embeds UserStore.Create from user.go: validate the email, then the
password, and only then hash the password and INSERT the row — the id and
the timestamps are assigned by the database, modelled by nextId and now.
A validation failure returns its error before anything is hashed or
written. -/
def UserStore.Create (db : List User) (nextId now : Nat)
    (email password : String) : CreateOutcome :=
  match ValidateEmail email with
  | .error e => ⟨.error e, db, 0⟩
  | .ok _ =>
    match ValidatePassword password with
    | .error e => ⟨.error e, db, 0⟩
    | .ok _ =>
      let u : User := ⟨nextId, email, HashPassword password, now, now⟩
      ⟨.ok u, db ++ [u], 1⟩

/-! ## JSON serialization of User (user.go tags, handlers/auth.go) -/

/-- Embeds the encoding/json serialization of User as the ordered list of
JSON keys and rendered values: the json tags name id, email, created_at and
updated_at, and the json dash tag on PasswordHash excludes that field from
every encoding. -/
def User.marshalJSON (u : User) : List (String × String) :=
  [("id", toString u.ID), ("email", u.Email),
   ("created_at", toString u.CreatedAt), ("updated_at", toString u.UpdatedAt)]

/-- UserResponse from handlers/auth.go: the user data exposed in API
responses — id, email and created_at only. -/
structure UserResponse where
  ID : String
  Email : String
  CreatedAt : String
deriving DecidableEq, Repr

/-- Embeds the construction of a UserResponse from a User as done in
Register, Login and Me in handlers/auth.go. -/
def UserResponse.ofUser (u : User) : UserResponse :=
  ⟨toString u.ID, u.Email, toString u.CreatedAt⟩

/-- Whether an Except value is a success, as a Bool. -/
def Except.isOkB : Except e a → Bool
  | .ok _ => true
  | .error _ => false

/-! ## Theorems for the cache claims -/

/-- C1 counterexample: Cache.Get on an absent key does not return a non-error
miss indication; on the empty store and key "k" it returns the empty string
together with a non-nil "key not found" error, so the miss signals failure. -/
theorem c1_get_miss_signals_error_cex :
    Cache.Get RedisStore.empty "k" = ("", some ("key not found: k")) ∧
    (Cache.Get RedisStore.empty "k").snd ≠ none := by
  constructor
  · rfl
  · intro h
    simp [Cache.Get, RedisStore.empty] at h

/-- C1 amended: Cache.Get on an absent key returns the empty string and the
non-nil error "key not found: " followed by the key — the miss is reported
through the error return (distinguishable by its message), not as a non-error
miss outcome. -/
theorem c1_get_miss_amended (store : RedisStore) (key : String)
    (habsent : store key = none) :
    Cache.Get store key = ("", some ("key not found: " ++ key)) := by
  unfold Cache.Get
  rw [habsent]

/-- Witness for c1_get_miss_amended at the empty store and key "k". -/
theorem c1_get_miss_amended_witness :
    RedisStore.empty "k" = none ∧
    Cache.Get RedisStore.empty "k" = ("", some ("key not found: " ++ "k")) :=
  ⟨rfl, c1_get_miss_amended RedisStore.empty "k" rfl⟩

/-- C2 counterexample: cache unavailability is surfaced to callers rather
than absorbed as a miss — with the database up and the cache down, the Ready
endpoint answers 503 "redis not ready", and New on an unreachable Redis
returns the error "unable to connect to Redis" instead of a degraded handle. -/
theorem c2_cache_unavailable_surfaced_cex :
    HealthHandler.Ready ⟨true, false⟩ = .serviceUnavailable "redis not ready" ∧
    Cache.New .unreachable = .error "unable to connect to Redis" :=
  ⟨rfl, rfl⟩

/-- C2 amended: when the cache store is unavailable the code surfaces the
failure instead of degrading to always-miss: New returns an error whenever
Redis is unreachable (startup fails, no handle is produced), and for every
dependency state with the database up and the cache down the Ready endpoint
answers 503 "redis not ready" to its caller. -/
theorem c2_cache_unavailable_amended (d : HealthDeps)
    (hdb : d.dbUp = true) (hcache : d.cacheUp = false) :
    HealthHandler.Ready d = .serviceUnavailable "redis not ready" ∧
    Cache.New .unreachable = .error "unable to connect to Redis" := by
  constructor
  · simp [HealthHandler.Ready, hdb, hcache]
  · rfl

/-- Witness for c2_cache_unavailable_amended with the database up and the
cache down. -/
theorem c2_cache_unavailable_amended_witness :
    (HealthDeps.mk true false).dbUp = true ∧
    (HealthDeps.mk true false).cacheUp = false ∧
    (HealthHandler.Ready ⟨true, false⟩ = .serviceUnavailable "redis not ready" ∧
      Cache.New .unreachable = .error "unable to connect to Redis") :=
  ⟨rfl, rfl, c2_cache_unavailable_amended ⟨true, false⟩ rfl rfl⟩

/-- C3: Cache.Set stores the value with the given expiry (a subsequent Get
returns it with a nil error), a second Set to the same key leaves the value
and TTL of the second Set (last-write-wins), and two identical Sets are
idempotent: the resulting store equals the one after a single Set. -/
theorem c3_put_overwrite_semantics (store : RedisStore) (key v1 v2 : String)
    (t1 t2 : Nat) :
    (Cache.Set store key v2 t2) key = some (v2, t2) ∧
    Cache.Get (Cache.Set store key v2 t2) key = (v2, none) ∧
    Cache.Set (Cache.Set store key v1 t1) key v2 t2 = Cache.Set store key v2 t2 ∧
    Cache.Set (Cache.Set store key v2 t2) key v2 t2 = Cache.Set store key v2 t2 := by
  refine ⟨by simp [Cache.Set], by simp [Cache.Get, Cache.Set], funext fun k => ?_,
    funext fun k => ?_⟩ <;>
  · by_cases hk : k = key <;> simp [Cache.Set, hk]

/-- C4: a submission starts as pending (the schema default), every chain of
statuses that starts at pending and follows the allowed transitions is a
prefix of pending, processing, then completed or failed — no transition skips
a state — and the terminal statuses completed and failed admit no further
transition. -/
theorem c4_status_machine_prefix (l : List Status)
    (hhead : l.head? = some Status.pending)
    (hchain : List.Chain' (fun a b => canTransition a b = true) l) :
    initialStatus = Status.pending ∧
    (l = [Status.pending] ∨
     l = [Status.pending, Status.processing] ∨
     l = [Status.pending, Status.processing, Status.completed] ∨
     l = [Status.pending, Status.processing, Status.failed]) ∧
    (∀ s, canTransition Status.completed s = false ∧
      canTransition Status.failed s = false) := by
  refine ⟨rfl, ?_, fun s => by cases s <;> exact ⟨rfl, rfl⟩⟩
  cases l with
  | nil => simp at hhead
  | cons a t =>
    simp only [List.head?_cons, Option.some.injEq] at hhead
    subst hhead
    cases t with
    | nil => exact Or.inl rfl
    | cons b t2 =>
      rw [List.chain'_cons] at hchain
      obtain ⟨h1, hchain2⟩ := hchain
      cases b with
      | pending => exact absurd h1 (by decide)
      | completed => exact absurd h1 (by decide)
      | failed => exact absurd h1 (by decide)
      | processing =>
        cases t2 with
        | nil => exact Or.inr (Or.inl rfl)
        | cons c t3 =>
          rw [List.chain'_cons] at hchain2
          obtain ⟨h2, hchain3⟩ := hchain2
          cases c with
          | pending => exact absurd h2 (by decide)
          | processing => exact absurd h2 (by decide)
          | completed =>
            cases t3 with
            | nil => exact Or.inr (Or.inr (Or.inl rfl))
            | cons d t4 =>
              rw [List.chain'_cons] at hchain3
              exact absurd hchain3.1 (by cases d <;> decide)
          | failed =>
            cases t3 with
            | nil => exact Or.inr (Or.inr (Or.inr rfl))
            | cons d t4 =>
              rw [List.chain'_cons] at hchain3
              exact absurd hchain3.1 (by cases d <;> decide)

/-- Witness for c4_status_machine_prefix on the full successful trace. -/
theorem c4_status_machine_prefix_witness :
    ([Status.pending, Status.processing, Status.completed].head? =
      some Status.pending) ∧
    List.Chain' (fun a b => canTransition a b = true)
      [Status.pending, Status.processing, Status.completed] ∧
    (initialStatus = Status.pending ∧
     ([Status.pending, Status.processing, Status.completed] = [Status.pending] ∨
      [Status.pending, Status.processing, Status.completed] =
        [Status.pending, Status.processing] ∨
      [Status.pending, Status.processing, Status.completed] =
        [Status.pending, Status.processing, Status.completed] ∨
      [Status.pending, Status.processing, Status.completed] =
        [Status.pending, Status.processing, Status.failed]) ∧
     (∀ s, canTransition Status.completed s = false ∧
       canTransition Status.failed s = false)) :=
  ⟨rfl, List.chain'_cons.mpr ⟨rfl, List.chain'_cons.mpr ⟨rfl, List.chain'_singleton _⟩⟩,
    c4_status_machine_prefix [Status.pending, Status.processing, Status.completed]
      rfl (List.chain'_cons.mpr ⟨rfl, List.chain'_cons.mpr ⟨rfl, List.chain'_singleton _⟩⟩)⟩

/-- Helper for the dispatcher bound: the per-window invariant — every
half-open window of size w holds at most n admitted calls — is preserved by
running the dispatcher from any log satisfying it, because each admission
re-checks the shared log at the single serialization point. -/
theorem dispatcher_window_invariant (w n : Nat) (reqs : List Nat) :
    ∀ log : DispatcherLog,
      (∀ a, log.countP (fun s => inWindow w a s) ≤ n) →
      ∀ a, (Dispatcher.run w n reqs log).countP (fun s => inWindow w a s) ≤ n := by
  induction reqs with
  | nil =>
    intro log hlog a
    exact hlog a
  | cons t rest ih =>
    intro log hlog a
    rw [Dispatcher.run]
    apply ih
    intro a2
    rcases Nat.lt_or_ge (log.countP (fun s => inRecentWindow w t s)) n with hadm | hadm
    · have hsnd : (Dispatcher.admitCall w n log t).snd = t :: log := by
        unfold Dispatcher.admitCall
        rw [if_pos hadm]
      rw [hsnd, List.countP_cons]
      by_cases hin : inWindow w a2 t = true
      · have hmono : log.countP (fun s => inWindow w a2 s) ≤
            log.countP (fun s => inRecentWindow w t s) := by
          apply List.countP_mono_left
          intro x _ hpx
          simp only [inWindow, Bool.and_eq_true, decide_eq_true_eq] at hpx hin
          simp only [inRecentWindow, decide_eq_true_eq]
          omega
        rw [hin]
        simp only [if_true]
        omega
      · simp only [Bool.not_eq_true] at hin
        rw [hin]
        simp only [Bool.false_eq_true, if_false, Nat.add_zero]
        exact hlog a2
    · have hsnd : (Dispatcher.admitCall w n log t).snd = log := by
        unfold Dispatcher.admitCall
        rw [if_neg (Nat.not_lt.mpr hadm)]
      rw [hsnd]
      exact hlog a2

/-- C5: for every window size, quota, and sequence of request times, and for
every window start, the number of external calls admitted by the dispatcher
whose timestamps lie in the half-open window of the configured size never
exceeds the configured quota, regardless of the request volume. -/
theorem c5_rate_limit_window_bound (w n : Nat) (reqs : List Nat) (a : Nat) :
    (Dispatcher.run w n reqs []).countP (fun s => inWindow w a s) ≤ n :=
  dispatcher_window_invariant w n reqs []
    (fun _ => by simp [List.countP_nil]) a

/-- Helper for the retry bound: from any retry count strictly below the
configured maximum, the always-transient run ends failed after exactly
maxRetries - r further attempts. -/
theorem processTransient_eq (maxRetries : Nat) :
    ∀ k r, maxRetries - r = k → r < maxRetries →
      Worker.processTransient maxRetries r = (Status.failed, maxRetries - r) := by
  intro k
  induction k with
  | zero =>
    intro r hk hr
    omega
  | succ k ih =>
    intro r hk hr
    rw [Worker.processTransient]
    by_cases hlt : r + 1 < maxRetries
    · rw [dif_pos hlt, ih (r + 1) (by omega) hlt]
      have harith : 1 + (maxRetries - (r + 1)) = maxRetries - r := by omega
      show (Status.failed, 1 + (maxRetries - (r + 1))) = (Status.failed, maxRetries - r)
      rw [harith]
    · rw [dif_neg hlt]
      have hmr : maxRetries - r = 1 := by omega
      rw [hmr]

/-- C6: a submission whose external calls always fail transiently terminates
with status failed after exactly the configured maximum number of attempts
(the model is a total function, so the retry loop cannot run forever). -/
theorem c6_retry_bound (maxRetries : Nat) (h : 1 ≤ maxRetries) :
    Worker.processTransient maxRetries 0 = (Status.failed, maxRetries) := by
  have heq := processTransient_eq maxRetries maxRetries 0 (by omega) (by omega)
  simpa using heq

/-- Witness for c6_retry_bound at the spec example of three retries. -/
theorem c6_retry_bound_witness :
    1 ≤ 3 ∧ Worker.processTransient 3 0 = (Status.failed, 3) :=
  ⟨by decide, c6_retry_bound 3 (by decide)⟩

/-- C7: the fingerprinter is deterministic and depends only on content — any
two submissions with identical text have the same fingerprint regardless of
owner, id, status or timestamp — and, starting from a pipeline state where
the text is uncached, processing the text and then processing it again (for
example from a different owner) within the cache TTL issues exactly one
external API call in total: the second processing is a cache hit. -/
theorem c7_fingerprint_dedup (s1 s2 : Submission) (analyze : String → String)
    (ttl : Nat) (st : PipeState) (T : String) (t1 t2 : Nat)
    (hcontent : s1.content = s2.content)
    (hfresh : st.cache (fingerprint T) = none)
    (hwithin : t2 < t1 + ttl) :
    s1.fingerprintOf = s2.fingerprintOf ∧
    (analyzeContent analyze ttl
        (analyzeContent analyze ttl st T t1).fst T t2).fst.externalCalls =
      st.externalCalls + 1 := by
  constructor
  · unfold Submission.fingerprintOf
    rw [hcontent]
  · simp [analyzeContent, hfresh, cacheFill, hwithin]

/-- Witness for c7_fingerprint_dedup on the spec scenario text submitted by
two different owners. -/
theorem c7_fingerprint_dedup_witness :
    (Submission.mk 1 "alice" "I love this product" Status.pending 0).content =
      (Submission.mk 2 "bob" "I love this product" Status.pending 5).content ∧
    PipeState.empty.cache (fingerprint "I love this product") = none ∧
    (5 : Nat) < 0 + 604800 ∧
    ((Submission.mk 1 "alice" "I love this product" Status.pending 0).fingerprintOf =
      (Submission.mk 2 "bob" "I love this product" Status.pending 5).fingerprintOf ∧
     (analyzeContent (fun _ => "positive") 604800
        (analyzeContent (fun _ => "positive") 604800 PipeState.empty
          "I love this product" 0).fst "I love this product" 5).fst.externalCalls =
       PipeState.empty.externalCalls + 1) :=
  ⟨rfl, rfl, by omega,
    c7_fingerprint_dedup (Submission.mk 1 "alice" "I love this product" Status.pending 0)
      (Submission.mk 2 "bob" "I love this product" Status.pending 5)
      (fun _ => "positive") 604800 PipeState.empty "I love this product" 0 5
      rfl rfl (by omega)⟩

/-- C8: JWT round-trip — for every user id, email, secret and issue time,
validating the access token produced by GenerateTokenPair with a JWTManager
holding the same secret succeeds and returns claims whose user id and email
equal the original inputs. -/
theorem c8_jwt_roundtrip (secretKey email : String) (userID now : Nat) :
    ∃ c : JwtClaims,
      (NewJWTManager secretKey).ValidateToken
        ((NewJWTManager secretKey).GenerateTokenPair userID email now).fst now =
        .ok c ∧
      c.userID = userID ∧ c.email = email := by
  refine ⟨⟨userID, email, now + 24 * 3600, now, now, "content-analyzer"⟩, ?_, rfl, rfl⟩
  simp only [NewJWTManager, JWTManager.GenerateTokenPair, JWTManager.generateToken,
    JWTManager.ValidateToken]
  rw [if_neg (fun h => h rfl)]
  rw [if_neg (by omega : ¬ now + 24 * 3600 ≤ now)]
  rw [if_neg (by omega : ¬ now < now)]

/-- C9: if the email does not match the email regex or the password is
shorter than 8 bytes (which covers the empty password), UserStore.Create
returns an error, the users table is unchanged, and the bcrypt hasher was
never invoked. -/
theorem c9_create_validation_gates (db : List User) (nextId now : Nat)
    (email password : String)
    (hinvalid : matchesEmailRegex email = false ∨ password.utf8ByteSize < 8) :
    (UserStore.Create db nextId now email password).result.isOkB = false ∧
    (UserStore.Create db nextId now email password).store = db ∧
    (UserStore.Create db nextId now email password).hashCalls = 0 := by
  rcases hinvalid with hmail | hpass
  · have hve : ∃ e, ValidateEmail email = .error e := by
      unfold ValidateEmail
      by_cases he : email = ""
      · exact ⟨"email is required", by rw [if_pos he]⟩
      · refine ⟨"invalid email format", ?_⟩
        rw [if_neg he, if_neg (by simp [hmail])]
    obtain ⟨e, hve⟩ := hve
    unfold UserStore.Create
    rw [hve]
    exact ⟨rfl, rfl, rfl⟩
  · have hvp : ∃ e, ValidatePassword password = .error e := by
      unfold ValidatePassword
      by_cases hp : password = ""
      · exact ⟨"password is required", by rw [if_pos hp]⟩
      · exact ⟨"password must be at least 8 characters long",
          by rw [if_neg hp, if_pos hpass]⟩
    obtain ⟨e, hvp⟩ := hvp
    unfold UserStore.Create
    cases hve : ValidateEmail email with
    | error e2 => exact ⟨rfl, rfl, rfl⟩
    | ok v =>
      rw [hvp]
      exact ⟨rfl, rfl, rfl⟩

/-- Witness for c9_create_validation_gates: an email the regex rejects, with
a valid password, leaves the empty table unchanged with no hash call. -/
theorem c9_create_validation_gates_witness :
    (matchesEmailRegex "not-an-email" = false ∨
      ("goodpass123" : String).utf8ByteSize < 8) ∧
    ((UserStore.Create [] 1 0 "not-an-email" "goodpass123").result.isOkB = false ∧
     (UserStore.Create [] 1 0 "not-an-email" "goodpass123").store = [] ∧
     (UserStore.Create [] 1 0 "not-an-email" "goodpass123").hashCalls = 0) :=
  ⟨Or.inl (by decide),
    c9_create_validation_gates [] 1 0 "not-an-email" "goodpass123"
      (Or.inl (by decide))⟩

/-- C10: the JSON encoding of a User carries no password_hash field — any two
Users that differ only in PasswordHash have identical JSON encodings, the
UserResponse values built from them are identical, and no key of the encoding
is password_hash. -/
theorem c10_json_hides_password_hash (u1 u2 : User)
    (hid : u1.ID = u2.ID) (hemail : u1.Email = u2.Email)
    (hca : u1.CreatedAt = u2.CreatedAt) (hua : u1.UpdatedAt = u2.UpdatedAt) :
    u1.marshalJSON = u2.marshalJSON ∧
    UserResponse.ofUser u1 = UserResponse.ofUser u2 ∧
    u1.marshalJSON.map Prod.fst = ["id", "email", "created_at", "updated_at"] ∧
    "password_hash" ∉ u1.marshalJSON.map Prod.fst := by
  refine ⟨?_, ?_, rfl, ?_⟩
  · unfold User.marshalJSON
    rw [hid, hemail, hca, hua]
  · unfold UserResponse.ofUser
    rw [hid, hemail, hca]
  · have hkeys : u1.marshalJSON.map Prod.fst =
        ["id", "email", "created_at", "updated_at"] := rfl
    rw [hkeys]
    decide

/-- Witness for c10_json_hides_password_hash on two concrete users that
differ only in their password hash. -/
theorem c10_json_hides_password_hash_witness :
    (User.mk 7 "a@b.co" "hash-one" 10 11).ID = (User.mk 7 "a@b.co" "hash-two" 10 11).ID ∧
    (User.mk 7 "a@b.co" "hash-one" 10 11).Email =
      (User.mk 7 "a@b.co" "hash-two" 10 11).Email ∧
    (User.mk 7 "a@b.co" "hash-one" 10 11).CreatedAt =
      (User.mk 7 "a@b.co" "hash-two" 10 11).CreatedAt ∧
    (User.mk 7 "a@b.co" "hash-one" 10 11).UpdatedAt =
      (User.mk 7 "a@b.co" "hash-two" 10 11).UpdatedAt ∧
    ((User.mk 7 "a@b.co" "hash-one" 10 11).marshalJSON =
       (User.mk 7 "a@b.co" "hash-two" 10 11).marshalJSON ∧
     UserResponse.ofUser (User.mk 7 "a@b.co" "hash-one" 10 11) =
       UserResponse.ofUser (User.mk 7 "a@b.co" "hash-two" 10 11) ∧
     (User.mk 7 "a@b.co" "hash-one" 10 11).marshalJSON.map Prod.fst =
       ["id", "email", "created_at", "updated_at"] ∧
     "password_hash" ∉
       (User.mk 7 "a@b.co" "hash-one" 10 11).marshalJSON.map Prod.fst) :=
  ⟨rfl, rfl, rfl, rfl,
    c10_json_hides_password_hash (User.mk 7 "a@b.co" "hash-one" 10 11)
      (User.mk 7 "a@b.co" "hash-two" 10 11) rfl rfl rfl rfl⟩
